import Mathlib

/-!
Shallow embedding of the p2p-safe-onboarding SDK core (TypeScript sources under
src/). Addresses and machine words are modelled as `Nat` with explicit bounds
where overflow matters; byte strings are `List Nat` (each element a byte value);
fallible code returns `Except`. External collaborators (RPC node, keccak, ABI
encoder, hash oracle, fee service) are passed in as explicit function
parameters, mirroring their interface boundary in the spec.
-/

namespace P2pSafeOnboarding

/-! ## Byte-string utilities -/

/-- Big-endian byte serialization of a natural number into exactly `n` bytes
(the value is taken modulo 256^n by construction of the digits). -/
def toBytesBE : Nat → Nat → List Nat
  | 0, _ => []
  | n + 1, x => toBytesBE n (x / 256) ++ [x % 256]

/-- Big-endian byte deserialization, the inverse of `toBytesBE`. -/
def fromBytesBE (bs : List Nat) : Nat :=
  bs.foldl (fun acc b => acc * 256 + b) 0

/-- Mirrors viem's padHex with default left direction: prepend zero bytes up to
the requested size. -/
def padLeftBytes (size : Nat) (bs : List Nat) : List Nat :=
  List.replicate (size - bs.length) 0 ++ bs

/-- Byte content of an ASCII string, mirroring viem's stringToHex on ASCII
input (each character's code point is one byte). -/
def strBytes (s : String) : List Nat :=
  s.data.map Char.toNat

/-! ## String utilities (JS String.prototype.includes semantics) -/

/-- Whether the second list is an initial segment of the first. -/
def startsWithChars : List Char → List Char → Bool
  | _, [] => true
  | [], _ :: _ => false
  | a :: as, b :: bs => a == b && startsWithChars as bs

/-- Whether `needle` occurs contiguously inside the second list. -/
def containsChars (needle : List Char) : List Char → Bool
  | [] => needle.isEmpty
  | h :: t => startsWithChars (h :: t) needle || containsChars needle t

/-- Mirrors JS `s.includes(pat)`. -/
def strIncludes (s pat : String) : Bool :=
  containsChars pat.data s.data

/-! ## JS error values and the transient-error classifier
(src/utils/errors.ts, unnamed/part_002) -/

/-- A JS value as far as the error-handling code inspects it: an Error object
with a name and a message, a plain string, or anything else. -/
inductive JsValue where
  | mkError (name message : String)
  | str (s : String)
  | other
deriving DecidableEq, Repr

/-- Translation of isContractFunctionZeroDataError (src/utils/errors.ts):
an Error named ContractFunctionZeroDataError, or an Error/string whose text
mentions ContractFunctionZeroDataError or the returned-no-data signature. -/
def isContractFunctionZeroDataError : JsValue → Bool
  | .mkError name message =>
      name == "ContractFunctionZeroDataError"
        || strIncludes message "ContractFunctionZeroDataError"
        || strIncludes message "returned no data"
  | .str s =>
      strIncludes s "ContractFunctionZeroDataError"
        || strIncludes s "returned no data"
  | .other => false

/-- Translation of normalizeContractFunctionZeroDataError (src/utils/errors.ts):
re-tag the error under the stable name ContractFunctionZeroDataError. -/
def normalizeContractFunctionZeroDataError : JsValue → JsValue
  | .mkError name message =>
      if name == "ContractFunctionZeroDataError" then .mkError name message
      else .mkError "ContractFunctionZeroDataError" message
  | .str s => .mkError "ContractFunctionZeroDataError" s
  | .other => .mkError "ContractFunctionZeroDataError" "Contract function returned no data"

/-- The name of a JS error value, when it is an Error object. -/
def jsErrorName : JsValue → Option String
  | .mkError name _ => some name
  | _ => none

/-! ## Bounded-retry Safe nonce read (prepareSafeTransaction, src/core/safe.ts
lines 201-222). The on-chain read is modelled as a function from the attempt
index to its outcome. The loop returns both the result and the number of
attempts actually made. -/

/-- One step of the retry for-loop: remaining iterations left, current attempt
index. Mirrors the TS loop body: success breaks out; a non-transient error is
re-raised at once; a transient error on the last attempt (index 2) is
normalized and raised; otherwise retry after the back-off sleep. -/
def safeNonceRetryLoop (reads : Nat → Except JsValue Nat) :
    Nat → Nat → Except JsValue Nat × Nat
  | 0, attempt =>
      (.error (.mkError "Error" "Unable to read Safe nonce after retries"), attempt)
  | remaining + 1, attempt =>
      match reads attempt with
      | .ok n => (.ok n, attempt + 1)
      | .error e =>
          if !isContractFunctionZeroDataError e then
            (.error e, attempt + 1)
          else if attempt == 2 then
            (.error (normalizeContractFunctionZeroDataError e), attempt + 1)
          else
            safeNonceRetryLoop reads remaining (attempt + 1)

/-- The bounded-retry wrapper around the Safe nonce read: at most 3 attempts,
starting at attempt index 0. -/
def safeNonceRead (reads : Nat → Except JsValue Nat) : Except JsValue Nat × Nat :=
  safeNonceRetryLoop reads 3 0

/-! ## Symbolic ABI call payloads

The repository's ABI encoding is delegated to viem's encodeFunctionData, which
is outside the core (spec section 1 treats ABI interface definitions as an
external collaborator, the core only needing their call signatures). Call
payloads are therefore represented symbolically by the call they encode; an
opaque byte-level encoder is threaded in wherever the orchestrator hands bytes
to the chain. -/

/-- A call payload, identified by the ABI function it encodes (function names
and argument lists follow src/utils/abis.ts). -/
inductive CallData where
  | raw (bytes : List Nat)
  | deployRolesModule (masterCopy : Nat) (owner : Nat) (avatar : Nat) (saltNonce : Nat)
  | assignRole (roleKey : List Nat) (moduleAddr : Nat)
  | scopeDepositTarget (roleKey : List Nat) (factory : Nat)
  | scopeWithdrawTarget (roleKey : List Nat) (proxy : Nat)
  | enableModule (moduleAddr : Nat)
  | multiSend (transactions : List Nat)
deriving DecidableEq, Repr

/-- One unit of a multi-call batch (interface SafeContractCall in
src/core/types.ts), with the payload kept symbolic. -/
structure SafeContractCall where
  «to» : Nat
  value : Nat
  data : CallData
  operation : Nat
deriving DecidableEq, Repr

/-! ## TransactionBatcher (spec section 4.3)

Modelled from the spec: encodeMultiSendCallData lives in src/utils/multisend.ts,
which is not under src/ (only its call sites in the orchestrator are). Spec 4.3:
for each call in order, concatenate a 1-byte operation tag, the 20-byte target,
a 32-byte value, a 32-byte payload length, and the payload bytes; empty input
yields an empty payload. -/

/-- One byte-level batch element: target, native value, payload bytes and the
call-vs-delegate operation flag. -/
structure MultiSendCall where
  «to» : Nat
  value : Nat
  data : List Nat
  operation : Nat
deriving DecidableEq, Repr

/-- Modelled from the spec: serialization of one batched call, per the fixed
concatenation format of spec section 4.3. -/
def encodeMultiSendCall (c : MultiSendCall) : List Nat :=
  c.operation % 256 :: (toBytesBE 20 c.«to» ++ toBytesBE 32 c.value
    ++ toBytesBE 32 c.data.length ++ c.data)

/-- Modelled from the spec: encodeMultiSendCallData (src/utils/multisend.ts is
not under src/) — the order-preserving concatenation of the per-call
serializations. -/
def encodeMultiSendCallData (calls : List MultiSendCall) : List Nat :=
  (calls.map encodeMultiSendCall).flatten

/-- Fuel-indexed decoder for the multiSend payload format: strips one
(tag, target, value, length, payload) record per step. -/
def decodeMultiSendAux (fuel : Nat) (bs : List Nat) :
    Option (List (Nat × Nat × Nat × List Nat)) :=
  match fuel, bs with
  | _, [] => some []
  | 0, _ :: _ => none
  | fuel + 1, op :: rest =>
      if 84 ≤ rest.length then
        let target := fromBytesBE (rest.take 20)
        let value := fromBytesBE ((rest.drop 20).take 32)
        let len := fromBytesBE ((rest.drop 52).take 32)
        let body := rest.drop 84
        if len ≤ body.length then
          match decodeMultiSendAux fuel (body.drop len) with
          | some tl => some ((op, target, value, body.take len) :: tl)
          | none => none
        else none
      else none

/-- Decoder for the batcher's payload, recovering the ordered list of
(operation, target, value, payload) tuples. -/
def decodeMultiSendCallData (bs : List Nat) : Option (List (Nat × Nat × Nat × List Nat)) :=
  decodeMultiSendAux bs.length bs

/-- Well-formedness of one batched call: the operation tag fits one byte, the
target fits 20 bytes and the value and payload length fit 32 bytes each. -/
def MultiSendCall.WF (c : MultiSendCall) : Prop :=
  c.operation < 256 ∧ c.«to» < 256 ^ 20 ∧ c.value < 256 ^ 32 ∧ c.data.length < 256 ^ 32

instance (c : MultiSendCall) : Decidable c.WF := by
  unfold MultiSendCall.WF; infer_instance

/-! ## SafeTransactionProtocol: prepare (src/core/safe.ts lines 193-262) -/

/-- The argument tuple handed to the Safe's own getTransactionHash view
function (src/utils/abis.ts), in declaration order. -/
structure HashArgs where
  «to» : Nat
  value : Nat
  data : CallData
  operation : Nat
  safeTxGas : Nat
  baseGas : Nat
  gasPrice : Nat
  gasToken : Nat
  refundReceiver : Nat
  nonce : Nat
deriving DecidableEq, Repr

/-- A not-yet-submitted Safe transaction (interface PreparedSafeTransaction in
src/core/types.ts). -/
structure PreparedSafeTransaction where
  «to» : Nat
  value : Nat
  data : CallData
  operation : Nat
  safeTxGas : Nat
  baseGas : Nat
  gasPrice : Nat
  gasToken : Nat
  refundReceiver : Nat
  nonce : Nat
  hash : Nat
deriving DecidableEq, Repr

/-- The viem zero address, as a number. -/
def zeroAddress : Nat := 0

/-- Translation of prepareSafeTransaction (src/core/safe.ts): read the Safe
nonce with bounded retry, then compute the canonical digest through the Safe's
own hash function with zeroed fee fields. The chain reads and the hash
computation are supplied as oracles: `reads` gives the outcome of the nonce
read per attempt, `hashOracle` is the getTransactionHash view call. The
HashArgs actually passed to the oracle are returned alongside the prepared
transaction. -/
def prepareSafeTransaction (reads : Nat → Except JsValue Nat)
    (hashOracle : HashArgs → Nat) (target : Nat) (data : CallData)
    (value : Nat) (operation : Nat) :
    Except JsValue (PreparedSafeTransaction × HashArgs) :=
  match (safeNonceRead reads).1 with
  | .error e => .error e
  | .ok nonce =>
      let safeTxGas := 0
      let baseGas := 0
      let gasPrice := 0
      let gasToken := zeroAddress
      let refundReceiver := zeroAddress
      let args : HashArgs :=
        { «to» := target, value := value, data := data, operation := operation,
          safeTxGas := safeTxGas, baseGas := baseGas, gasPrice := gasPrice,
          gasToken := gasToken, refundReceiver := refundReceiver, nonce := nonce }
      let hash := hashOracle args
      .ok ({ «to» := target, value := value, data := data, operation := operation,
             safeTxGas := safeTxGas, baseGas := baseGas, gasPrice := gasPrice,
             gasToken := gasToken, refundReceiver := refundReceiver,
             nonce := nonce, hash := hash }, args)

/-! ## SafeTransactionProtocol: execute (src/core/safe.ts lines 272-314) -/

/-- The write call submitted by executeSafeTransaction: the execTransaction
entry point of the Safe with the prepared fields and the constructed
signature bytes. -/
structure ExecTransactionArgs where
  safeAddress : Nat
  «to» : Nat
  value : Nat
  data : CallData
  operation : Nat
  safeTxGas : Nat
  baseGas : Nat
  gasPrice : Nat
  gasToken : Nat
  refundReceiver : Nat
  signatures : List Nat
deriving DecidableEq, Repr

/-- Translation of the signature construction in executeSafeTransaction
(src/core/safe.ts lines 284-287): r is the owner address padded left to 32
bytes, s is 32 zero bytes, and the trailing byte 0x01 marks a pre-approved
hash signature. -/
def approvedHashSignature (ownerAddress : Nat) : List Nat :=
  padLeftBytes 32 (toBytesBE 20 ownerAddress) ++ padLeftBytes 32 [] ++ [1]

/-- Translation of executeSafeTransaction (src/core/safe.ts): build the
pre-approved-hash signature from the wallet account address and submit the
single execTransaction write with the prepared transaction's fields. -/
def executeSafeTransaction (ownerAddress : Nat) (safeAddress : Nat)
    (transaction : PreparedSafeTransaction) : ExecTransactionArgs :=
  { safeAddress := safeAddress
    «to» := transaction.«to»
    value := transaction.value
    data := transaction.data
    operation := transaction.operation
    safeTxGas := transaction.safeTxGas
    baseGas := transaction.baseGas
    gasPrice := transaction.gasPrice
    gasToken := transaction.gasToken
    refundReceiver := transaction.refundReceiver
    signatures := approvedHashSignature ownerAddress }

/-! ## Safe deployment: address extraction from the receipt
(deploySafe, src/core/safe.ts lines 127-177) -/

/-- A receipt log as the extraction code inspects it: the emitting address and
the outcome of decodeEventLog against the proxy factory ABI (none when
decoding throws on a non-matching log). -/
structure ReceiptLog where
  address : Nat
  decoded : Option (String × Option Nat)
deriving DecidableEq, Repr

/-- The part of a transaction receipt consulted by deploySafe: its logs and the
direct contract-address field (none also covers an address on which viem's
getAddress checksum validation throws, which the code swallows). -/
structure TxReceipt where
  logs : List ReceiptLog
  contractAddress : Option Nat
deriving DecidableEq, Repr

/-- Translation of the for-loop over receipt logs in deploySafe: skip logs not
emitted by the resolved factory, skip logs that fail to decode, stop at the
first factory log decoding to a ProxyCreation event and take its proxy
argument (the loop breaks there even when the argument is absent). -/
def findProxyCreationAddress (factory : Nat) : List ReceiptLog → Option Nat
  | [] => none
  | l :: rest =>
      if l.address ≠ factory then findProxyCreationAddress factory rest
      else
        match l.decoded with
        | none => findProxyCreationAddress factory rest
        | some (eventName, proxyArg) =>
            if eventName = "ProxyCreation" then proxyArg
            else findProxyCreationAddress factory rest

/-- Translation of the address-extraction tail of deploySafe (src/core/safe.ts
lines 138-177): the ProxyCreation event from the resolved factory is the
primary source, the receipt's contractAddress field the fallback, and an
AccountCreationError is raised when neither yields an address. -/
def extractSafeAddress (factory : Nat) (receipt : TxReceipt) : Except JsValue Nat :=
  match findProxyCreationAddress factory receipt.logs with
  | some proxy => .ok proxy
  | none =>
      match receipt.contractAddress with
      | some addr => .ok addr
      | none =>
          .error (.mkError "Error"
            "Safe proxy creation event not found in transaction receipt. Verify SAFE_PROXY_FACTORY_ADDRESS, SAFE_SINGLETON_ADDRESS, and gas sufficiency.")

/-! ## Token amount normalization
(OnboardingClient.normalizeTokenAmount, unnamed/part_001 lines 82-108) -/

/-- A JS number as the normalization code classifies it: not finite, finite but
not an integer, or an integer double carrying its exact value (BigInt on an
integral double is exact) and whether it lies in the safe-integer range. -/
inductive JsNumber where
  | nonFinite
  | nonIntegerFinite
  | integer (v : Int) (safe : Bool)
deriving DecidableEq, Repr

/-- The dynamic type of the amount argument (bigint, number or string). -/
inductive AmountInput where
  | big (v : Int)
  | num (x : JsNumber)
  | str (s : String)
deriving DecidableEq, Repr

/-- The distinct failure outcomes of normalizeTokenAmount. `rawBigIntSyntaxError`
is not one of the function's own validation errors: it is the uncaught
SyntaxError that JS BigInt() raises when the pre-validated string still fails
to parse. -/
inductive AmountError where
  | notInteger
  | emptyAmount
  | nonNumeric
  | badType
  | rawBigIntSyntaxError
deriving DecidableEq, Repr

/-- JS whitespace test for the characters relevant to ASCII input
(String.prototype.trim). -/
def isJsWhitespace (c : Char) : Bool :=
  c == ' ' || c == '\t' || c == '\n' || c == '\r'

/-- JS String.prototype.trim on the character list of a string: strip
whitespace from both ends. -/
def trimChars (cs : List Char) : List Char :=
  ((cs.dropWhile isJsWhitespace).reverse.dropWhile isJsWhitespace).reverse

/-- Decimal digit test, JS character class [0-9]. -/
def isDecDigit (c : Char) : Bool := '0' ≤ c && c ≤ '9'

/-- Hexadecimal digit test, JS character class [0-9a-fA-F]. -/
def isHexDigit (c : Char) : Bool :=
  ('0' ≤ c && c ≤ '9') || ('a' ≤ c && c ≤ 'f') || ('A' ≤ c && c ≤ 'F')

/-- Binary digit test. -/
def isBinDigit (c : Char) : Bool := c == '0' || c == '1'

/-- Octal digit test. -/
def isOctDigit (c : Char) : Bool := '0' ≤ c && c ≤ '7'

/-- Numeric value of a digit character (works for 0-9, a-f, A-F). -/
def digitVal (c : Char) : Nat :=
  if isDecDigit c then c.toNat - '0'.toNat
  else if 'a' ≤ c && c ≤ 'f' then c.toNat - 'a'.toNat + 10
  else if 'A' ≤ c && c ≤ 'F' then c.toNat - 'A'.toNat + 10
  else 0

/-- Value of a digit string in the given base. -/
def digitsVal (base : Nat) (cs : List Char) : Nat :=
  cs.foldl (fun acc c => acc * base + digitVal c) 0

/-- The regular expression of normalizeTokenAmount, an anchored match of
(0x)?[0-9a-fA-F]+ — an optional 0x prefix followed by at least one
hexadecimal-class character. -/
def matchesAmountPattern (cs : List Char) : Bool :=
  match cs with
  | '0' :: 'x' :: rest => !rest.isEmpty && rest.all isHexDigit
  | _ => !cs.isEmpty && cs.all isHexDigit

/-- JS StringToBigInt on an already-trimmed string: empty means zero, the 0x,
0o and 0b prefixes (case-insensitive) select a base and forbid a sign, and
otherwise an optional sign precedes decimal digits; anything else is a
SyntaxError (none). -/
def jsStringToBigInt (cs : List Char) : Option Int :=
  match cs with
  | [] => some 0
  | '0' :: 'x' :: rest =>
      if !rest.isEmpty && rest.all isHexDigit then some (digitsVal 16 rest) else none
  | '0' :: 'X' :: rest =>
      if !rest.isEmpty && rest.all isHexDigit then some (digitsVal 16 rest) else none
  | '0' :: 'b' :: rest =>
      if !rest.isEmpty && rest.all isBinDigit then some (digitsVal 2 rest) else none
  | '0' :: 'B' :: rest =>
      if !rest.isEmpty && rest.all isBinDigit then some (digitsVal 2 rest) else none
  | '0' :: 'o' :: rest =>
      if !rest.isEmpty && rest.all isOctDigit then some (digitsVal 8 rest) else none
  | '0' :: 'O' :: rest =>
      if !rest.isEmpty && rest.all isOctDigit then some (digitsVal 8 rest) else none
  | '-' :: rest =>
      if !rest.isEmpty && rest.all isDecDigit then some (-(digitsVal 10 rest : Int)) else none
  | '+' :: rest =>
      if !rest.isEmpty && rest.all isDecDigit then some (digitsVal 10 rest) else none
  | _ =>
      if cs.all isDecDigit then some (digitsVal 10 cs) else none

/-- Translation of OnboardingClient.normalizeTokenAmount (unnamed/part_001):
bigints pass through; numbers must be finite integers (BigInt on an integral
double is exact, with only a logged warning outside the safe range); strings
are trimmed, checked non-empty, checked against the (0x)?[0-9a-fA-F]+ pattern
and then handed to BigInt, whose own SyntaxError propagates uncaught when the
pattern admitted a string BigInt cannot parse. -/
def normalizeTokenAmount (amount : AmountInput) : Except AmountError Int :=
  match amount with
  | .big v => .ok v
  | .num .nonFinite => .error .notInteger
  | .num .nonIntegerFinite => .error .notInteger
  | .num (.integer v _) => .ok v
  | .str s =>
      let normalized := trimChars s.data
      if normalized.isEmpty then .error .emptyAmount
      else if !matchesAmountPattern normalized then .error .nonNumeric
      else
        match jsStringToBigInt normalized with
        | some v => .ok v
        | none => .error .rawBigIntSyntaxError

/-! ## Operator nonce bookkeeping
(NonceManager, src/core/types.ts lines 84-87; OnboardingClient.onboardClient,
unnamed/part_001 lines 398-409) -/

/-- The in-memory counter state of the run-local NonceManager; it starts from
the single getTransactionCount chain read and lives only for the run. -/
abbrev NonceState := Nat

/-- Translation of the consumeNonce closure: return the current counter and
increment it in memory. -/
def consumeNonce (s : NonceState) : Nat × NonceState := (s, s + 1)

/-- Translation of the peekNonce closure: return the current counter without
changing it. -/
def peekNonce (s : NonceState) : Nat := s

/-- The values produced by n successive consumeNonce calls from a given
state, paired with the final state. -/
def consumeSeq : Nat → NonceState → List Nat × NonceState
  | 0, s => ([], s)
  | n + 1, s =>
      let (v, s') := consumeNonce s
      let (vs, sEnd) := consumeSeq n s'
      (v :: vs, sEnd)

/-- The operator-originated submissions of one onboardClient run and the
nonces they consume: the counter is seeded once from the chain's transaction
count, the Safe deployment write consumes the first value and the batched
setup execTransaction write consumes the second (unnamed/part_001 lines
398-504). The returned list is the in-order trace of consumed nonces; the
final counter state is discarded with the run. -/
def onboardClientOperatorNonces (chainTransactionCount : Nat) : List Nat :=
  let s0 : NonceState := chainTransactionCount
  let (deployNonce, s1) := consumeNonce s0
  let (execNonce, _) := consumeNonce s1
  [deployNonce, execNonce]

/-! ## Constants (src/constants.ts, unnamed, lines 316-339) -/

def P2P_ADDRESS : Nat := 0x588ede4403DF0082C5ab245b35F0f79EB2d8033a

def P2P_SUPERFORM_PROXY_FACTORY_ADDRESS : Nat := 0x815B6A7c0b8F4D1c7cdb5031EBe802bf4f7e6d81

def ROLES_MASTER_COPY_ADDRESS : Nat := 0x9646fDAD06d3e24444381f44362a3B0eB343D337

def SAFE_SINGLETON_ADDRESS : Nat := 0xd9Db270c1B5E3Bd161E8c8503c55ceABeE709552

def SAFE_PROXY_FACTORY_ADDRESS : Nat := 0xa6B71E26C5e0845f74c812102Ca7114b6a896AB2

def SAFE_MULTI_SEND_CALL_ONLY_ADDRESS : Nat := 0x40A2aCCbd92BCA938b02010E17A5b8929b49130D

/-! ## Fee terms (src/core/types.ts FeeConfig; src/core/p2p.ts is not under
src/, its behaviour modelled from the spec) -/

/-- Client-specific basis-point fee parameters (interface FeeConfig in
src/core/types.ts). -/
structure FeeConfig where
  clientBasisPointsOfDeposit : Nat
  clientBasisPointsOfProfit : Nat
deriving DecidableEq, Repr

/-- Modelled from the spec: fetchFeeConfig (src/core/p2p.ts is not under
src/). Spec sections 3 and 4.5: fee terms come from the external source and
default to (0, 9700) basis points when that source is unavailable; the
collaborator's reply (or its absence) is passed in as an Option. -/
def fetchFeeConfig (remote : Option FeeConfig) : FeeConfig :=
  remote.getD { clientBasisPointsOfDeposit := 0, clientBasisPointsOfProfit := 9700 }

/-! ## Roles module preparation (src/core/roles.ts is not under src/, its
behaviour modelled from the spec) -/

/-- Result of preparing the Roles module deployment: the pre-deployment
module address, the not-yet-submitted deployment call and the salt used. -/
structure RolesDeployment where
  rolesAddress : Nat
  deploymentCall : SafeContractCall
  saltNonce : Nat
deriving Repr

/-- Modelled from the spec: prepareRolesModuleDeployment (src/core/roles.ts is
not under src/). Spec 4.2 and 4.5 step 2: the module address is a
deterministic function of (master-copy address, initializer, salt) mirroring
the module factory's assignment rule — supplied here as the derivation oracle
`deriveModuleAddress` — and the deployment call targets the module factory
with a plain call carrying (masterCopy, initializer, saltNonce). -/
def prepareRolesModuleDeployment
    (deriveModuleAddress : Nat → Nat → Nat → Nat → Nat)
    (moduleFactoryAddress : Nat) (masterCopy : Nat) (ownerAddress : Nat)
    (safeAddress : Nat) (saltNonce : Nat) : RolesDeployment :=
  let rolesAddress := deriveModuleAddress masterCopy ownerAddress safeAddress saltNonce
  { rolesAddress := rolesAddress
    deploymentCall :=
      { «to» := moduleFactoryAddress, value := 0
        data := .deployRolesModule masterCopy ownerAddress safeAddress saltNonce
        operation := 0 }
    saltNonce := saltNonce }

/-- Modelled from the spec: prepareRolesPermissions (src/core/roles.ts is not
under src/). Spec 4.1 and section 8: the ordered permission calls against the
module are exactly the assign-role call, the call scoping the factory target
to its single deposit selector, and the call scoping the predicted proxy
target to its single withdraw selector — three plain calls, in that order. -/
def prepareRolesPermissions (rolesAddress : Nat) (roleKey : List Nat)
    (p2pModuleAddress : Nat) (factoryAddress : Nat)
    (predictedProxyAddress : Nat) : List SafeContractCall :=
  [ { «to» := rolesAddress, value := 0
      data := .assignRole roleKey p2pModuleAddress, operation := 0 },
    { «to» := rolesAddress, value := 0
      data := .scopeDepositTarget roleKey factoryAddress, operation := 0 },
    { «to» := rolesAddress, value := 0
      data := .scopeWithdrawTarget roleKey predictedProxyAddress, operation := 0 } ]

/-! ## OnboardingClient configuration and collaborators
(unnamed/part_001 lines 31-80, src/core/types.ts OnboardingConfig) -/

/-- The caller-facing configuration (interface OnboardingConfig in
src/core/types.ts): optional overrides over the baked-in constants, the
wallet account, and the optional fee-config fetcher. -/
structure OnboardingConfig where
  walletAccount : Option Nat
  p2pAddress : Option Nat := none
  p2pSuperformProxyFactoryAddress : Option Nat := none
  rolesMasterCopyAddress : Option Nat := none
  safeSingletonAddress : Option Nat := none
  safeProxyFactoryAddress : Option Nat := none
  safeMultiSendCallOnlyAddress : Option Nat := none
  feeConfigFetcher : Option (Nat → FeeConfig) := none
  safeSaltNonce : Option Nat := none
  rolesSaltNonce : Option Nat := none

/-- The configuration after the constructor's one-time defaulting
(unnamed/part_001 lines 51-69): every address field resolved against the
baked-in constants. -/
structure ResolvedConfig where
  walletAccount : Option Nat
  p2pAddress : Nat
  p2pSuperformProxyFactoryAddress : Nat
  rolesMasterCopyAddress : Nat
  safeSingletonAddress : Nat
  safeProxyFactoryAddress : Nat
  safeMultiSendCallOnlyAddress : Nat
  feeConfigFetcher : Option (Nat → FeeConfig)
  safeSaltNonce : Option Nat
  rolesSaltNonce : Option Nat

/-- Translation of the OnboardingClient constructor's configuration merge:
defaults layered under caller overrides, applied once. -/
def resolveConfig (config : OnboardingConfig) : ResolvedConfig :=
  { walletAccount := config.walletAccount
    p2pAddress := config.p2pAddress.getD P2P_ADDRESS
    p2pSuperformProxyFactoryAddress :=
      config.p2pSuperformProxyFactoryAddress.getD P2P_SUPERFORM_PROXY_FACTORY_ADDRESS
    rolesMasterCopyAddress := config.rolesMasterCopyAddress.getD ROLES_MASTER_COPY_ADDRESS
    safeSingletonAddress := config.safeSingletonAddress.getD SAFE_SINGLETON_ADDRESS
    safeProxyFactoryAddress := config.safeProxyFactoryAddress.getD SAFE_PROXY_FACTORY_ADDRESS
    safeMultiSendCallOnlyAddress :=
      config.safeMultiSendCallOnlyAddress.getD SAFE_MULTI_SEND_CALL_ONLY_ADDRESS
    feeConfigFetcher := config.feeConfigFetcher
    safeSaltNonce := config.safeSaltNonce
    rolesSaltNonce := config.rolesSaltNonce }

/-- Translation of OnboardingClient.resolveFeeConfig (unnamed/part_001 lines
71-80): a caller-supplied feeConfigFetcher takes priority; otherwise the
external fee source is consulted (its reply modelled as an Option, see
fetchFeeConfig). -/
def resolveFeeConfig (cfg : ResolvedConfig) (remote : Option FeeConfig)
    (client : Nat) : FeeConfig :=
  match cfg.feeConfigFetcher with
  | some fetcher => fetcher client
  | none => fetchFeeConfig remote

/-- The external collaborators of one setPermissions run, as pure oracles:
keccak over bytes, the module-address derivation rule, the factory's
predictP2pYieldProxyAddress view call, the remote fee source's reply, the ABI
byte encoder, the per-attempt Safe nonce read and the getTransactionHash view
call, plus the module factory address resolved inside the roles helper. -/
structure SetPermissionsOracles where
  keccak : List Nat → List Nat
  deriveModuleAddress : Nat → Nat → Nat → Nat → Nat
  moduleFactoryAddress : Nat
  predictProxy : Nat → Nat → Nat → Nat
  feeRemote : Option FeeConfig
  abiEncode : CallData → List Nat
  nonceReads : Nat → Except JsValue Nat
  hashOracle : HashArgs → Nat
  defaultRolesSalt : Nat

/-! ## OnboardingClient.setPermissions (unnamed/part_001 lines 141-249) -/

/-- enum SafeTransactionOperation (src/core/types.ts): plain call. -/
def SafeTransactionOperation.Call : Nat := 0

/-- enum SafeTransactionOperation (src/core/types.ts): delegated call. -/
def SafeTransactionOperation.DelegateCall : Nat := 1

/-- Translation of DEFAULT_ROLE_KEY (unnamed/part_001 line 29): the keccak256
hash of the fixed string P2P_SUPERFORM_ROLE, computed once at module load.
The keccak function itself is viem's, threaded in as an oracle. -/
def DEFAULT_ROLE_KEY (keccak : List Nat → List Nat) : List Nat :=
  keccak (strBytes "P2P_SUPERFORM_ROLE")

/-- Parameters of setPermissions (interface SetPermissionsParams): every field
optional. -/
structure SetPermissionsParams where
  safeAddress : Option Nat := none
  clientAddress : Option Nat := none
  multiSendCallOnlyAddress : Option Nat := none
deriving Repr

/-- The mutable session fields of the OnboardingClient consulted by
setPermissions (lastSafeAddress, lastMultiSendCallOnly). -/
structure ClientState where
  lastSafeAddress : Option Nat := none
  lastMultiSendCallOnly : Option Nat := none
deriving DecidableEq, Repr

/-- Lowering of a symbolic call to the byte-level batch element consumed by
the batcher, using the ABI encoder oracle for the payload. -/
def toMultiSendCall (abiEncode : CallData → List Nat) (c : SafeContractCall) :
    MultiSendCall :=
  { «to» := c.«to», value := c.value, data := abiEncode c.data,
    operation := c.operation }

/-- Everything one setPermissions run produces and every argument it hands to
a collaborator: the returned SetPermissionsResult fields, the resolved batch
target, the BatchedCall list given to the batcher, the arguments of the
predictP2pYieldProxyAddress call, the resolved fee terms and client address,
the prepared Safe transaction with the hash arguments actually used, and the
in-order list of submitted Safe transactions. -/
structure SetPermissionsOutcome where
  rolesAddress : Nat
  predictedProxyAddress : Nat
  roleKey : List Nat
  clientAddress : Nat
  multiSendCallOnly : Nat
  feeConfig : FeeConfig
  proxyCallArgs : Nat × Nat × Nat
  batchedCalls : List SafeContractCall
  preparedTx : PreparedSafeTransaction
  hashArgs : HashArgs
  executedTxs : List ExecTransactionArgs

/-- Translation of OnboardingClient.setPermissions (unnamed/part_001 lines
141-249): resolve the Safe address, client address and MultiSendCallOnly
target; prepare the Roles module deployment; resolve fee terms and predict
the proxy address from them; build the permission calls and the enableModule
call; batch all five calls through encodeMultiSendCallData; wrap the batch in
a multiSend payload; prepare it as a single delegated-call Safe transaction
targeting MultiSendCallOnly and execute it once. The parts living in files
absent from src/ (roles and p2p helpers, the batcher) enter through their
spec-modelled definitions above. -/
def setPermissions (cfg : ResolvedConfig) (st : ClientState)
    (env : SetPermissionsOracles) (params : SetPermissionsParams) :
    Except JsValue SetPermissionsOutcome :=
  match cfg.walletAccount with
  | none => .error (.mkError "Error" "Wallet client must have an active account")
  | some account =>
    match params.safeAddress <|> st.lastSafeAddress with
    | none =>
        .error (.mkError "Error"
          "Safe address is required; call deploySafe() first or provide safeAddress")
    | some safeAddress =>
      let clientAddress := params.clientAddress.getD account
      let multiSendCallOnly :=
        (params.multiSendCallOnlyAddress <|> st.lastMultiSendCallOnly).getD
          cfg.safeMultiSendCallOnlyAddress
      let rolesDeployment :=
        prepareRolesModuleDeployment env.deriveModuleAddress env.moduleFactoryAddress
          cfg.rolesMasterCopyAddress safeAddress safeAddress
          (cfg.rolesSaltNonce.getD env.defaultRolesSalt)
      let rolesAddress := rolesDeployment.rolesAddress
      let feeConfig := resolveFeeConfig cfg env.feeRemote clientAddress
      let proxyCallArgs :=
        (safeAddress, feeConfig.clientBasisPointsOfDeposit,
          feeConfig.clientBasisPointsOfProfit)
      let predictedProxyAddress :=
        env.predictProxy safeAddress feeConfig.clientBasisPointsOfDeposit
          feeConfig.clientBasisPointsOfProfit
      let roleKey := DEFAULT_ROLE_KEY env.keccak
      let permissionCalls :=
        prepareRolesPermissions rolesAddress roleKey cfg.p2pAddress
          cfg.p2pSuperformProxyFactoryAddress predictedProxyAddress
      let enableModuleCall : SafeContractCall :=
        { «to» := safeAddress, value := 0, data := .enableModule rolesAddress,
          operation := SafeTransactionOperation.Call }
      let batchedCalls := rolesDeployment.deploymentCall :: permissionCalls ++ [enableModuleCall]
      let encodedTransactions :=
        encodeMultiSendCallData (batchedCalls.map (toMultiSendCall env.abiEncode))
      let multiSendData : CallData := .multiSend encodedTransactions
      match prepareSafeTransaction env.nonceReads env.hashOracle multiSendCallOnly
          multiSendData 0 SafeTransactionOperation.DelegateCall with
      | .error e => .error e
      | .ok (preparedTx, hashArgs) =>
          let execArgs := executeSafeTransaction account safeAddress preparedTx
          .ok { rolesAddress := rolesAddress
                predictedProxyAddress := predictedProxyAddress
                roleKey := roleKey
                clientAddress := clientAddress
                multiSendCallOnly := multiSendCallOnly
                feeConfig := feeConfig
                proxyCallArgs := proxyCallArgs
                batchedCalls := batchedCalls
                preparedTx := preparedTx
                hashArgs := hashArgs
                executedTxs := [execArgs] }

/-! ## Concrete sample runs (used to exercise the theorems on closed inputs) -/

/-- A placeholder outcome used as the fallback of sample-run projections. -/
def emptyOutcome : SetPermissionsOutcome :=
  { rolesAddress := 0, predictedProxyAddress := 0, roleKey := []
    clientAddress := 0, multiSendCallOnly := 0
    feeConfig := { clientBasisPointsOfDeposit := 0, clientBasisPointsOfProfit := 0 }
    proxyCallArgs := (0, 0, 0), batchedCalls := []
    preparedTx := { «to» := 0, value := 0, data := .raw [], operation := 0,
                    safeTxGas := 0, baseGas := 0, gasPrice := 0, gasToken := 0,
                    refundReceiver := 0, nonce := 0, hash := 0 }
    hashArgs := { «to» := 0, value := 0, data := .raw [], operation := 0,
                  safeTxGas := 0, baseGas := 0, gasPrice := 0, gasToken := 0,
                  refundReceiver := 0, nonce := 0 }
    executedTxs := [] }

/-- Sample collaborators: identity-flavoured pure oracles with an always
successful nonce read and a trivial ABI encoder. -/
def sampleEnv : SetPermissionsOracles :=
  { keccak := fun bs => 17 :: bs
    deriveModuleAddress := fun masterCopy owner avatar salt =>
      masterCopy + owner + avatar + salt + 1
    moduleFactoryAddress := 900
    predictProxy := fun client depositBps profitBps =>
      client * 1000000000 + depositBps * 100000 + profitBps
    feeRemote := none
    abiEncode := fun _ => []
    nonceReads := fun _ => .ok 4
    hashOracle := fun _ => 77
    defaultRolesSalt := 3 }

/-- Sample configuration: an active wallet account, everything else left to
the baked-in defaults, no fee-config fetcher. -/
def sampleCfg : ResolvedConfig :=
  resolveConfig { walletAccount := some 21 }

/-- Sample configuration with a caller-supplied fee-config fetcher. -/
def sampleCfgFetcher : ResolvedConfig :=
  resolveConfig
    { walletAccount := some 21
      feeConfigFetcher := some (fun _ =>
        { clientBasisPointsOfDeposit := 5, clientBasisPointsOfProfit := 1234 }) }

/-- Sample setPermissions parameters carrying an explicit Safe address. -/
def sampleParams : SetPermissionsParams := { safeAddress := some 400 }

/-- The outcome of the sample run against the default-configuration client. -/
def sampleOut : SetPermissionsOutcome :=
  match setPermissions sampleCfg {} sampleEnv sampleParams with
  | .ok o => o
  | .error _ => emptyOutcome

/-- The outcome of the sample run against the fetcher-configured client. -/
def sampleOutFetcher : SetPermissionsOutcome :=
  match setPermissions sampleCfgFetcher {} sampleEnv sampleParams with
  | .ok o => o
  | .error _ => emptyOutcome

/-- A sample transaction preparation against an always-successful nonce read
and a constant hash oracle. -/
def samplePrepared : Except JsValue (PreparedSafeTransaction × HashArgs) :=
  prepareSafeTransaction (fun _ => .ok 5) (fun _ => 7) 3 (.raw [2]) 0 1

/-- The prepared transaction of the sample preparation. -/
def sampleTx : PreparedSafeTransaction :=
  match samplePrepared with
  | .ok (t, _) => t
  | .error _ => emptyOutcome.preparedTx

/-- The hash arguments of the sample preparation. -/
def sampleHashArgs : HashArgs :=
  match samplePrepared with
  | .ok (_, a) => a
  | .error _ => emptyOutcome.hashArgs

/-! # Theorems

General lemmas about the byte-level utilities, then one theorem per claim of
the specification (each followed by a closed witness when it carries
hypotheses). -/

theorem toBytesBE_length (n x : Nat) : (toBytesBE n x).length = n := by
  induction n generalizing x with
  | zero => rfl
  | succ n ih => simp [toBytesBE, ih]

theorem toBytesBE_zero (n : Nat) : toBytesBE n 0 = List.replicate n 0 := by
  induction n with
  | zero => rfl
  | succ n ih => simp [toBytesBE, ih, List.replicate_succ']

theorem toBytesBE_split (k m x : Nat) (h : x < 256 ^ m) :
    toBytesBE (k + m) x = List.replicate k 0 ++ toBytesBE m x := by
  induction m generalizing k x with
  | zero =>
      have hx : x = 0 := Nat.lt_one_iff.mp (by simpa using h)
      simp [hx, toBytesBE, toBytesBE_zero]
  | succ m ih =>
      have hdiv : x / 256 < 256 ^ m := by
        rw [Nat.div_lt_iff_lt_mul (by norm_num : 0 < 256)]
        calc x < 256 ^ (m + 1) := h
          _ = 256 ^ m * 256 := by rw [pow_succ]
      have : k + (m + 1) = (k + m) + 1 := by omega
      rw [this, toBytesBE, ih k (x / 256) hdiv, toBytesBE, List.append_assoc]

theorem foldl_toBytesBE (m : Nat) : ∀ x a : Nat, x < 256 ^ m →
    (toBytesBE m x).foldl (fun acc b => acc * 256 + b) a = a * 256 ^ m + x := by
  induction m with
  | zero =>
      intro x a h
      have hx : x = 0 := Nat.lt_one_iff.mp (by simpa using h)
      simp [hx, toBytesBE]
  | succ m ih =>
      intro x a h
      have hdiv : x / 256 < 256 ^ m := by
        rw [Nat.div_lt_iff_lt_mul (by norm_num : 0 < 256)]
        calc x < 256 ^ (m + 1) := h
          _ = 256 ^ m * 256 := by rw [pow_succ]
      rw [toBytesBE, List.foldl_append, ih (x / 256) a hdiv]
      simp only [List.foldl_cons, List.foldl_nil]
      have hx : x / 256 * 256 + x % 256 = x := by omega
      calc (a * 256 ^ m + x / 256) * 256 + x % 256
          = a * (256 ^ m * 256) + (x / 256 * 256 + x % 256) := by ring
        _ = a * 256 ^ (m + 1) + x := by rw [hx, ← pow_succ]

theorem fromBytesBE_toBytesBE (m x : Nat) (h : x < 256 ^ m) :
    fromBytesBE (toBytesBE m x) = x := by
  have := foldl_toBytesBE m x 0 h
  simpa [fromBytesBE] using this

/-- C3: for every execution of a prepared multisig transaction, the signature
bytes submitted are exactly the owner address left-padded with zeros to 32
bytes, followed by 32 zero bytes, followed by the single trailing type byte
0x01 (65 bytes total), constructed deterministically from the wallet account's
address alone (independent of the transaction being executed), with no
interactive signing. -/
theorem execute_signature_prevalidated_format (ownerAddress safeAddress : Nat)
    (tx : PreparedSafeTransaction) (h : ownerAddress < 256 ^ 20) :
    (executeSafeTransaction ownerAddress safeAddress tx).signatures
        = toBytesBE 32 ownerAddress ++ List.replicate 32 0 ++ [1]
      ∧ (executeSafeTransaction ownerAddress safeAddress tx).signatures.length = 65
      ∧ ∀ (safeAddress' : Nat) (tx' : PreparedSafeTransaction),
          (executeSafeTransaction ownerAddress safeAddress' tx').signatures
            = (executeSafeTransaction ownerAddress safeAddress tx).signatures := by
  have hpad : padLeftBytes 32 (toBytesBE 20 ownerAddress) = toBytesBE 32 ownerAddress := by
    have h32 : (32 : Nat) = 12 + 20 := by norm_num
    rw [padLeftBytes, toBytesBE_length]
    rw [h32, toBytesBE_split 12 20 ownerAddress h]
  have hsig : approvedHashSignature ownerAddress
      = toBytesBE 32 ownerAddress ++ List.replicate 32 0 ++ [1] := by
    rw [approvedHashSignature, hpad]
    simp [padLeftBytes]
  refine ⟨hsig, ?_, fun _ _ => rfl⟩
  rw [show (executeSafeTransaction ownerAddress safeAddress tx).signatures
      = approvedHashSignature ownerAddress from rfl, hsig]
  simp [toBytesBE_length]

/-- Witness for C3 at a concrete owner address. -/
theorem execute_signature_prevalidated_format_witness :
    (0xAAAAAAAAAAAAAAAAAAAAAAAAAAAAAAAAAAAAAAA1 : Nat) < 256 ^ 20
      ∧ (executeSafeTransaction 0xAAAAAAAAAAAAAAAAAAAAAAAAAAAAAAAAAAAAAAA1 0
          emptyOutcome.preparedTx).signatures
          = toBytesBE 32 0xAAAAAAAAAAAAAAAAAAAAAAAAAAAAAAAAAAAAAAA1
              ++ List.replicate 32 0 ++ [1] :=
  ⟨by norm_num,
   (execute_signature_prevalidated_format 0xAAAAAAAAAAAAAAAAAAAAAAAAAAAAAAAAAAAAAAA1 0
      emptyOutcome.preparedTx (by norm_num)).1⟩

/-- C4: every PreparedSafeTransaction produced by transaction preparation has
safeTxGas, baseGas and gasPrice zero and gasToken and refundReceiver equal to
the zero address, for all inputs, and those same zero/null values are the
ones passed into the getTransactionHash digest computation. -/
theorem prepare_zeroes_fee_fields (reads : Nat → Except JsValue Nat)
    (hashOracle : HashArgs → Nat) (target : Nat) (data : CallData)
    (value operation : Nat) (tx : PreparedSafeTransaction) (args : HashArgs)
    (h : prepareSafeTransaction reads hashOracle target data value operation
        = .ok (tx, args)) :
    tx.safeTxGas = 0 ∧ tx.baseGas = 0 ∧ tx.gasPrice = 0
      ∧ tx.gasToken = zeroAddress ∧ tx.refundReceiver = zeroAddress
      ∧ args.safeTxGas = 0 ∧ args.baseGas = 0 ∧ args.gasPrice = 0
      ∧ args.gasToken = zeroAddress ∧ args.refundReceiver = zeroAddress
      ∧ tx.hash = hashOracle args := by
  unfold prepareSafeTransaction at h
  cases hn : (safeNonceRead reads).1 with
  | error e => rw [hn] at h; exact absurd h (by simp)
  | ok nonce =>
      rw [hn] at h
      simp only [Except.ok.injEq, Prod.mk.injEq] at h
      obtain ⟨htx, hargs⟩ := h
      subst htx; subst hargs
      simp [zeroAddress]

/-- Witness for C4 at a concrete preparation. -/
theorem prepare_zeroes_fee_fields_witness :
    samplePrepared = .ok (sampleTx, sampleHashArgs)
      ∧ (sampleTx.safeTxGas = 0 ∧ sampleTx.baseGas = 0 ∧ sampleTx.gasPrice = 0
          ∧ sampleTx.gasToken = zeroAddress ∧ sampleTx.refundReceiver = zeroAddress
          ∧ sampleHashArgs.safeTxGas = 0 ∧ sampleHashArgs.baseGas = 0
          ∧ sampleHashArgs.gasPrice = 0 ∧ sampleHashArgs.gasToken = zeroAddress
          ∧ sampleHashArgs.refundReceiver = zeroAddress
          ∧ sampleTx.hash = (fun _ => 7) sampleHashArgs) :=
  ⟨rfl, prepare_zeroes_fee_fields (fun _ => .ok 5) (fun _ => 7) 3 (.raw [2]) 0 1
    sampleTx sampleHashArgs rfl⟩

theorem normalize_zero_data_name (e : JsValue) :
    jsErrorName (normalizeContractFunctionZeroDataError e)
      = some "ContractFunctionZeroDataError" := by
  cases e with
  | mkError n m =>
      by_cases h : n = "ContractFunctionZeroDataError"
      · simp [normalizeContractFunctionZeroDataError, jsErrorName, h]
      · simp [normalizeContractFunctionZeroDataError, jsErrorName, h]
  | str s => rfl
  | other => rfl

/-- C2: the bounded-retry Safe-nonce read. A collaborator failing with the
transient contract-returned-no-data signature on the first two attempts and
succeeding on the third yields the success value after exactly 3 attempts; a
collaborator failing transiently on all three attempts yields, after exactly
3 attempts, an error whose kind is the stable normalized
ContractFunctionZeroDataError; an error that does not match the transient
signature is re-raised immediately without retry, whichever attempt it
occurs on. -/
theorem safe_nonce_read_bounded_retry (reads : Nat → Except JsValue Nat) :
    (∀ e₀ e₁ v, reads 0 = .error e₀ → isContractFunctionZeroDataError e₀ = true →
        reads 1 = .error e₁ → isContractFunctionZeroDataError e₁ = true →
        reads 2 = .ok v → safeNonceRead reads = (.ok v, 3))
  ∧ (∀ e₀ e₁ e₂, reads 0 = .error e₀ → isContractFunctionZeroDataError e₀ = true →
        reads 1 = .error e₁ → isContractFunctionZeroDataError e₁ = true →
        reads 2 = .error e₂ → isContractFunctionZeroDataError e₂ = true →
        safeNonceRead reads = (.error (normalizeContractFunctionZeroDataError e₂), 3)
          ∧ jsErrorName (normalizeContractFunctionZeroDataError e₂)
              = some "ContractFunctionZeroDataError")
  ∧ (∀ e, reads 0 = .error e → isContractFunctionZeroDataError e = false →
        safeNonceRead reads = (.error e, 1))
  ∧ (∀ e₀ e₁, reads 0 = .error e₀ → isContractFunctionZeroDataError e₀ = true →
        reads 1 = .error e₁ → isContractFunctionZeroDataError e₁ = false →
        safeNonceRead reads = (.error e₁, 2))
  ∧ (∀ e₀ e₁ e₂, reads 0 = .error e₀ → isContractFunctionZeroDataError e₀ = true →
        reads 1 = .error e₁ → isContractFunctionZeroDataError e₁ = true →
        reads 2 = .error e₂ → isContractFunctionZeroDataError e₂ = false →
        safeNonceRead reads = (.error e₂, 3)) := by
  refine ⟨?_, ?_, ?_, ?_, ?_⟩
  · intro e₀ e₁ v h0 t0 h1 t1 h2
    simp [safeNonceRead, safeNonceRetryLoop, h0, t0, h1, t1, h2]
  · intro e₀ e₁ e₂ h0 t0 h1 t1 h2 t2
    exact ⟨by simp [safeNonceRead, safeNonceRetryLoop, h0, t0, h1, t1, h2, t2],
      normalize_zero_data_name e₂⟩
  · intro e h0 t0
    simp [safeNonceRead, safeNonceRetryLoop, h0, t0]
  · intro e₀ e₁ h0 t0 h1 t1
    simp [safeNonceRead, safeNonceRetryLoop, h0, t0, h1, t1]
  · intro e₀ e₁ e₂ h0 t0 h1 t1 h2 t2
    simp [safeNonceRead, safeNonceRetryLoop, h0, t0, h1, t1, h2, t2]

/-- Witness for C2: a collaborator that fails transiently exactly twice and
then succeeds returns the success value after exactly 3 attempts. -/
theorem safe_nonce_read_bounded_retry_witness :
    safeNonceRead (fun i =>
        if i < 2 then .error (.str "the contract function returned no data")
        else .ok 7)
      = (.ok 7, 3) :=
  (safe_nonce_read_bounded_retry _).1
    (.str "the contract function returned no data")
    (.str "the contract function returned no data") 7
    rfl (by decide) rfl (by decide) rfl

/-- C5: for every Safe deployment receipt, the new account address is extracted
from the factory-emitted ProxyCreation event, considering only logs emitted by
the resolved factory; if no such event yields an address, the receipt's direct
contract-address field is the fallback; and if neither source yields an
address, the extraction fails with the AccountCreationError of the spec's
taxonomy (the creation-event-not-found error). -/
theorem deploy_receipt_address_extraction (factory : Nat) (receipt : TxReceipt) :
    (∀ a, findProxyCreationAddress factory receipt.logs = some a →
        extractSafeAddress factory receipt = .ok a)
  ∧ (∀ c, findProxyCreationAddress factory receipt.logs = none →
        receipt.contractAddress = some c →
        extractSafeAddress factory receipt = .ok c)
  ∧ (findProxyCreationAddress factory receipt.logs = none →
      receipt.contractAddress = none →
      extractSafeAddress factory receipt = .error (.mkError "Error"
        "Safe proxy creation event not found in transaction receipt. Verify SAFE_PROXY_FACTORY_ADDRESS, SAFE_SINGLETON_ADDRESS, and gas sufficiency."))
  ∧ (∀ l ls, l.address ≠ factory →
      findProxyCreationAddress factory (l :: ls) = findProxyCreationAddress factory ls) := by
  refine ⟨?_, ?_, ?_, ?_⟩
  · intro a hfind
    simp [extractSafeAddress, hfind]
  · intro c hfind hca
    simp [extractSafeAddress, hfind, hca]
  · intro hfind hca
    simp [extractSafeAddress, hfind, hca]
  · intro l ls hne
    simp [findProxyCreationAddress, hne]

/-- Witness for C5 on three concrete receipts: the ProxyCreation path (with a
foreign log skipped first), the contract-address fallback path, and the
error path. -/
theorem deploy_receipt_address_extraction_witness :
    extractSafeAddress 7
        { logs := [ { address := 8, decoded := some ("ProxyCreation", some 5) },
                    { address := 7, decoded := some ("ProxyCreation", some 42) } ]
          contractAddress := none } = .ok 42
  ∧ extractSafeAddress 7 { logs := [], contractAddress := some 9 } = .ok 9
  ∧ extractSafeAddress 7
        { logs := [ { address := 7, decoded := none } ], contractAddress := none }
      = .error (.mkError "Error"
          "Safe proxy creation event not found in transaction receipt. Verify SAFE_PROXY_FACTORY_ADDRESS, SAFE_SINGLETON_ADDRESS, and gas sufficiency.") :=
  ⟨(deploy_receipt_address_extraction 7 _).1 42 (by decide),
   (deploy_receipt_address_extraction 7 _).2.1 9 rfl rfl,
   (deploy_receipt_address_extraction 7 _).2.2.1 (by decide) rfl⟩

/-- C9: the run-local operator nonce bookkeeping. consumeNonce returns
consecutive strictly increasing values starting from the initially read
transaction count (n successive consumptions from state init produce exactly
init, init+1, ..., init+n-1), peekNonce does not change the counter (it is a
pure read of the state), and one onboardClient run seeds the counter from the
single chain read and consumes exactly the two consecutive values for its two
operator-originated submissions, discarding the final state with the run. -/
theorem operator_nonce_local_bookkeeping :
    (∀ n init, (consumeSeq n init).1 = List.range' init n
        ∧ (consumeSeq n init).2 = init + n)
  ∧ (∀ s, peekNonce s = s)
  ∧ (∀ s, (consumeNonce s).1 = s ∧ (consumeNonce s).2 = s + 1)
  ∧ (∀ c, onboardClientOperatorNonces c = [c, c + 1]) := by
  refine ⟨?_, fun s => rfl, fun s => ⟨rfl, rfl⟩, fun c => rfl⟩
  intro n
  induction n with
  | zero => intro init; simp [consumeSeq]
  | succ n ih =>
      intro init
      obtain ⟨h1, h2⟩ := ih (init + 1)
      refine ⟨?_, ?_⟩
      · simp [consumeSeq, consumeNonce, h1, List.range'_succ]
      · simp only [consumeSeq, consumeNonce]
        rw [h2]
        exact (Nat.add_right_comm init 1 n).trans (Nat.add_assoc init n 1)

/-- C8 (code bug): normalizeTokenAmount's validation pattern
(0x)?[0-9a-fA-F]+ admits bare hexadecimal strings such as "ff", which JS
BigInt cannot parse without the 0x prefix, so the function raises a raw
BigInt SyntaxError instead of a distinct declared error kind for this
malformed (non-numeric) string; meanwhile the declared kinds do fire for the
empty string, a pattern-rejected string and a non-integer number, and
well-formed decimal, 0x-prefixed and bigint inputs convert exactly. -/
theorem normalize_amount_bare_hex_raw_error :
    normalizeTokenAmount (.str "ff") = .error .rawBigIntSyntaxError
  ∧ matchesAmountPattern "ff".data = true
  ∧ AmountError.rawBigIntSyntaxError ≠ AmountError.nonNumeric
  ∧ AmountError.rawBigIntSyntaxError ≠ AmountError.emptyAmount
  ∧ AmountError.rawBigIntSyntaxError ≠ AmountError.notInteger
  ∧ normalizeTokenAmount (.str "") = .error .emptyAmount
  ∧ normalizeTokenAmount (.str "12z") = .error .nonNumeric
  ∧ normalizeTokenAmount (.num .nonIntegerFinite) = .error .notInteger
  ∧ normalizeTokenAmount (.str "1234") = .ok 1234
  ∧ normalizeTokenAmount (.str "0xff") = .ok 255
  ∧ normalizeTokenAmount (.big 42) = .ok 42 := by
  exact ⟨rfl, by decide, by decide, by decide, by decide, rfl, rfl, rfl, rfl, rfl, rfl⟩

theorem encodeMultiSendCallData_length_ge (calls : List MultiSendCall) :
    calls.length ≤ (encodeMultiSendCallData calls).length := by
  induction calls with
  | nil => simp [encodeMultiSendCallData]
  | cons c cs ih =>
      simp only [encodeMultiSendCallData, List.map_cons, List.flatten_cons,
        List.length_append, List.length_cons]
      have h1 : (encodeMultiSendCallData cs).length = ((cs.map encodeMultiSendCall).flatten).length := rfl
      have h2 : 1 ≤ (encodeMultiSendCall c).length := by simp [encodeMultiSendCall]
      omega

theorem decodeMultiSendAux_encode (calls : List MultiSendCall) :
    ∀ fuel, calls.length ≤ fuel → (∀ c ∈ calls, c.WF) →
    decodeMultiSendAux fuel (encodeMultiSendCallData calls)
      = some (calls.map (fun c => (c.operation, c.«to», c.value, c.data))) := by
  induction calls with
  | nil =>
      intro fuel _ _
      cases fuel <;> simp [encodeMultiSendCallData, decodeMultiSendAux]
  | cons c cs ih =>
      intro fuel hfuel hwf
      obtain ⟨f, rfl⟩ : ∃ f, fuel = f + 1 := ⟨fuel - 1, by simp at hfuel; omega⟩
      obtain ⟨hop, hto, hval, hlen⟩ := hwf c (List.mem_cons_self c cs)
      have hwfcs : ∀ x ∈ cs, x.WF := fun x hx => hwf x (List.mem_cons_of_mem c hx)
      have hfcs : cs.length ≤ f := by simp at hfuel; omega
      have lA : (toBytesBE 20 c.«to»).length = 20 := toBytesBE_length 20 c.«to»
      have lB : (toBytesBE 32 c.value).length = 32 := toBytesBE_length 32 c.value
      have lC : (toBytesBE 32 c.data.length).length = 32 := toBytesBE_length 32 c.data.length
      have henc : encodeMultiSendCallData (c :: cs)
          = c.operation % 256
              :: (toBytesBE 20 c.«to» ++ (toBytesBE 32 c.value
                  ++ (toBytesBE 32 c.data.length
                      ++ (c.data ++ encodeMultiSendCallData cs)))) := by
        simp [encodeMultiSendCallData, encodeMultiSendCall, List.append_assoc]
      set rest := toBytesBE 20 c.«to» ++ (toBytesBE 32 c.value
          ++ (toBytesBE 32 c.data.length
              ++ (c.data ++ encodeMultiSendCallData cs))) with hrest
      have hlenRest : 84 ≤ rest.length := by
        simp [hrest, lA, lB, lC]
        omega
      have htake20 : rest.take 20 = toBytesBE 20 c.«to» := List.take_left' lA
      have hdrop20 : rest.drop 20 = toBytesBE 32 c.value
          ++ (toBytesBE 32 c.data.length ++ (c.data ++ encodeMultiSendCallData cs)) :=
        List.drop_left' lA
      have htakeVal : (rest.drop 20).take 32 = toBytesBE 32 c.value := by
        rw [hdrop20]; exact List.take_left' lB
      have hdrop52 : rest.drop 52 = toBytesBE 32 c.data.length
          ++ (c.data ++ encodeMultiSendCallData cs) := by
        have : rest = (toBytesBE 20 c.«to» ++ toBytesBE 32 c.value)
            ++ (toBytesBE 32 c.data.length ++ (c.data ++ encodeMultiSendCallData cs)) := by
          rw [hrest]; simp [List.append_assoc]
        rw [this]
        exact List.drop_left' (by simp [lA, lB])
      have htakeLen : (rest.drop 52).take 32 = toBytesBE 32 c.data.length := by
        rw [hdrop52]; exact List.take_left' lC
      have hdrop84 : rest.drop 84 = c.data ++ encodeMultiSendCallData cs := by
        have : rest = ((toBytesBE 20 c.«to» ++ toBytesBE 32 c.value)
            ++ toBytesBE 32 c.data.length) ++ (c.data ++ encodeMultiSendCallData cs) := by
          rw [hrest]; simp [List.append_assoc]
        rw [this]
        exact List.drop_left' (by simp [lA, lB, lC])
      have hfromLen : fromBytesBE (toBytesBE 32 c.data.length) = c.data.length :=
        fromBytesBE_toBytesBE 32 c.data.length hlen
      have hbodyTake : (c.data ++ encodeMultiSendCallData cs).take c.data.length = c.data :=
        List.take_left' rfl
      have hbodyDrop : (c.data ++ encodeMultiSendCallData cs).drop c.data.length
          = encodeMultiSendCallData cs := List.drop_left' rfl
      rw [henc]
      simp only [decodeMultiSendAux]
      rw [if_pos hlenRest]
      rw [htake20, htakeVal, htakeLen, hdrop84, hfromLen]
      rw [if_pos (by simp)]
      rw [hbodyDrop, ih f hfcs hwfcs, hbodyTake]
      simp [fromBytesBE_toBytesBE 20 c.«to» hto, fromBytesBE_toBytesBE 32 c.value hval,
        Nat.mod_eq_of_lt hop]

/-- C6: the batcher's round-trip law. For every ordered list of well-formed
batched calls (operation tag one byte, target 20 bytes, value and payload
length 32 bytes), decoding the payload produced by the order-preserving
(tag, target, value, length, payload) concatenation yields exactly the
original ordered list of (operation, target, value, payload) tuples, and the
empty list yields the empty payload. -/
theorem multisend_encode_decode_roundtrip (calls : List MultiSendCall)
    (h : ∀ c ∈ calls, c.WF) :
    decodeMultiSendCallData (encodeMultiSendCallData calls)
      = some (calls.map (fun c => (c.operation, c.«to», c.value, c.data)))
  ∧ encodeMultiSendCallData [] = ([] : List Nat) :=
  ⟨decodeMultiSendAux_encode calls (encodeMultiSendCallData calls).length
      (encodeMultiSendCallData_length_ge calls) h,
   rfl⟩

/-- Witness for C6 on a concrete two-call batch. -/
theorem multisend_encode_decode_roundtrip_witness :
    decodeMultiSendCallData (encodeMultiSendCallData
        [ { «to» := 1, value := 2, data := [9, 9], operation := 1 },
          { «to» := 3, value := 0, data := [], operation := 0 } ])
      = some [(1, 1, 2, [9, 9]), (0, 3, 0, [])] :=
  (multisend_encode_decode_roundtrip
      [ { «to» := 1, value := 2, data := [9, 9], operation := 1 },
        { «to» := 3, value := 0, data := [], operation := 0 } ]
      (by decide)).1

theorem prepareSafeTransaction_ok_fields (reads : Nat → Except JsValue Nat)
    (hashOracle : HashArgs → Nat) (target : Nat) (data : CallData)
    (value operation : Nat) (tx : PreparedSafeTransaction) (args : HashArgs)
    (h : prepareSafeTransaction reads hashOracle target data value operation
        = .ok (tx, args)) :
    tx.«to» = target ∧ tx.value = value ∧ tx.data = data
      ∧ tx.operation = operation := by
  unfold prepareSafeTransaction at h
  cases hn : (safeNonceRead reads).1 with
  | error e => rw [hn] at h; exact absurd h (by simp)
  | ok nonce =>
      rw [hn] at h
      simp only [Except.ok.injEq, Prod.mk.injEq] at h
      obtain ⟨htx, _⟩ := h
      subst htx
      exact ⟨rfl, rfl, rfl, rfl⟩

theorem setPermissions_ok_fields (cfg : ResolvedConfig) (st : ClientState)
    (env : SetPermissionsOracles) (params : SetPermissionsParams)
    (out : SetPermissionsOutcome)
    (h : setPermissions cfg st env params = .ok out) :
    ∃ account sa,
      cfg.walletAccount = some account
      ∧ (params.safeAddress <|> st.lastSafeAddress) = some sa
      ∧ out.clientAddress = params.clientAddress.getD account
      ∧ out.multiSendCallOnly
          = (params.multiSendCallOnlyAddress <|> st.lastMultiSendCallOnly).getD
              cfg.safeMultiSendCallOnlyAddress
      ∧ out.feeConfig = resolveFeeConfig cfg env.feeRemote out.clientAddress
      ∧ out.roleKey = DEFAULT_ROLE_KEY env.keccak
      ∧ out.rolesAddress
          = env.deriveModuleAddress cfg.rolesMasterCopyAddress sa sa
              (cfg.rolesSaltNonce.getD env.defaultRolesSalt)
      ∧ out.proxyCallArgs = (sa, out.feeConfig.clientBasisPointsOfDeposit,
            out.feeConfig.clientBasisPointsOfProfit)
      ∧ out.predictedProxyAddress
          = env.predictProxy sa out.feeConfig.clientBasisPointsOfDeposit
              out.feeConfig.clientBasisPointsOfProfit
      ∧ out.batchedCalls
          = [ { «to» := env.moduleFactoryAddress, value := 0,
                data := .deployRolesModule cfg.rolesMasterCopyAddress sa sa
                  (cfg.rolesSaltNonce.getD env.defaultRolesSalt),
                operation := 0 },
              { «to» := out.rolesAddress, value := 0,
                data := .assignRole out.roleKey cfg.p2pAddress, operation := 0 },
              { «to» := out.rolesAddress, value := 0,
                data := .scopeDepositTarget out.roleKey
                  cfg.p2pSuperformProxyFactoryAddress, operation := 0 },
              { «to» := out.rolesAddress, value := 0,
                data := .scopeWithdrawTarget out.roleKey out.predictedProxyAddress,
                operation := 0 },
              { «to» := sa, value := 0, data := .enableModule out.rolesAddress,
                operation := 0 } ]
      ∧ out.preparedTx.operation = SafeTransactionOperation.DelegateCall
      ∧ out.preparedTx.«to» = out.multiSendCallOnly
      ∧ out.executedTxs = [executeSafeTransaction account sa out.preparedTx] := by
  unfold setPermissions at h
  cases hacc : cfg.walletAccount with
  | none => rw [hacc] at h; exact absurd h (by simp)
  | some account =>
    rw [hacc] at h
    cases hsa : params.safeAddress <|> st.lastSafeAddress with
    | none => rw [hsa] at h; exact absurd h (by simp)
    | some sa =>
      rw [hsa] at h
      refine ⟨account, sa, rfl, rfl, ?_⟩
      dsimp only at h
      split at h
      · exact absurd h (by simp)
      · next ptx hargs heq =>
          have hfields := prepareSafeTransaction_ok_fields _ _ _ _ _ _ _ _ heq
          simp only [Except.ok.injEq] at h
          subst h
          exact ⟨rfl, rfl, rfl, rfl, rfl, rfl, rfl, rfl, hfields.2.2.2, hfields.1, rfl⟩

/-- C1: for every permission-setup run that completes, the batched call list
handed to the batcher is exactly, in order, the roles-module deployment call,
the assign-role call, the call scoping the factory target, the call scoping
the predicted-proxy target and the enable-module call (length exactly 5), and
the batch is submitted as exactly one multisig transaction whose operation
kind is DelegateCall and whose target is the resolved MultiSendCallOnly
contract. -/
theorem setPermissions_batches_five_calls_one_delegatecall
    (cfg : ResolvedConfig) (st : ClientState) (env : SetPermissionsOracles)
    (params : SetPermissionsParams) (out : SetPermissionsOutcome)
    (h : setPermissions cfg st env params = .ok out) :
    out.batchedCalls.length = 5
  ∧ (∃ sa salt,
      out.batchedCalls
        = [ { «to» := env.moduleFactoryAddress, value := 0,
              data := .deployRolesModule cfg.rolesMasterCopyAddress sa sa salt,
              operation := 0 },
            { «to» := out.rolesAddress, value := 0,
              data := .assignRole out.roleKey cfg.p2pAddress, operation := 0 },
            { «to» := out.rolesAddress, value := 0,
              data := .scopeDepositTarget out.roleKey
                cfg.p2pSuperformProxyFactoryAddress, operation := 0 },
            { «to» := out.rolesAddress, value := 0,
              data := .scopeWithdrawTarget out.roleKey out.predictedProxyAddress,
              operation := 0 },
            { «to» := sa, value := 0, data := .enableModule out.rolesAddress,
              operation := 0 } ])
  ∧ out.executedTxs.length = 1
  ∧ (∃ e, out.executedTxs = [e]
      ∧ e.operation = SafeTransactionOperation.DelegateCall
      ∧ e.«to» = out.multiSendCallOnly)
  ∧ out.preparedTx.operation = SafeTransactionOperation.DelegateCall
  ∧ out.preparedTx.«to» = out.multiSendCallOnly
  ∧ out.multiSendCallOnly
      = (params.multiSendCallOnlyAddress <|> st.lastMultiSendCallOnly).getD
          cfg.safeMultiSendCallOnlyAddress := by
  obtain ⟨account, sa, _, _, _, hmso, _, _, _, _, _, hbatch, hop, hto, hexec⟩ :=
    setPermissions_ok_fields cfg st env params out h
  refine ⟨by rw [hbatch]; rfl,
    ⟨sa, cfg.rolesSaltNonce.getD env.defaultRolesSalt, hbatch⟩,
    by rw [hexec]; rfl,
    ⟨executeSafeTransaction account sa out.preparedTx, hexec, ?_, ?_⟩,
    hop, hto, hmso⟩
  · exact hop
  · rw [show (executeSafeTransaction account sa out.preparedTx).«to»
      = out.preparedTx.«to» from rfl, hto]

/-- Witness for C1 on the concrete sample run. -/
theorem setPermissions_batches_five_calls_one_delegatecall_witness :
    setPermissions sampleCfg {} sampleEnv sampleParams = .ok sampleOut
      ∧ sampleOut.batchedCalls.length = 5
      ∧ sampleOut.executedTxs.length = 1
      ∧ sampleOut.preparedTx.operation = SafeTransactionOperation.DelegateCall
      ∧ sampleOut.preparedTx.«to» = sampleOut.multiSendCallOnly :=
  have t := setPermissions_batches_five_calls_one_delegatecall sampleCfg {} sampleEnv
    sampleParams sampleOut rfl
  ⟨rfl, t.1, t.2.2.1, t.2.2.2.2.1, t.2.2.2.2.2.1⟩

/-- C7: for every completed permission-setup run with no caller-supplied
feeConfigFetcher and an unavailable external fee source, the resolved fee
terms are exactly (depositBps 0, profitBps 9700) and the proxy-address
prediction call receives exactly those two values; when a caller-supplied
feeConfigFetcher is present it is used instead of the remote source. -/
theorem fee_terms_default_and_fetcher
    (cfg : ResolvedConfig) (st : ClientState) (env : SetPermissionsOracles)
    (params : SetPermissionsParams) (out : SetPermissionsOutcome)
    (h : setPermissions cfg st env params = .ok out) :
    (cfg.feeConfigFetcher = none → env.feeRemote = none →
        out.feeConfig
            = { clientBasisPointsOfDeposit := 0, clientBasisPointsOfProfit := 9700 }
          ∧ out.proxyCallArgs.2 = (0, 9700))
  ∧ (∀ fetcher, cfg.feeConfigFetcher = some fetcher →
        out.feeConfig = fetcher out.clientAddress)
  ∧ out.proxyCallArgs.2
      = (out.feeConfig.clientBasisPointsOfDeposit,
          out.feeConfig.clientBasisPointsOfProfit)
  ∧ out.predictedProxyAddress
      = env.predictProxy out.proxyCallArgs.1 out.proxyCallArgs.2.1
          out.proxyCallArgs.2.2 := by
  obtain ⟨account, sa, _, _, _, _, hfee, _, _, hargs, hpred, _, _, _, _⟩ :=
    setPermissions_ok_fields cfg st env params out h
  refine ⟨?_, ?_, by rw [hargs], by rw [hargs, hpred]⟩
  · intro hfetch hremote
    have : out.feeConfig
        = { clientBasisPointsOfDeposit := 0, clientBasisPointsOfProfit := 9700 } := by
      rw [hfee, resolveFeeConfig, hfetch, hremote]
      rfl
    exact ⟨this, by rw [hargs, this]⟩
  · intro fetcher hfetch
    rw [hfee, resolveFeeConfig, hfetch]

/-- Witness for C7 on two concrete sample runs: one with the fee source
unavailable and no fetcher, one with a caller-supplied fetcher. -/
theorem fee_terms_default_and_fetcher_witness :
    setPermissions sampleCfg {} sampleEnv sampleParams = .ok sampleOut
      ∧ sampleOut.feeConfig
          = { clientBasisPointsOfDeposit := 0, clientBasisPointsOfProfit := 9700 }
      ∧ sampleOut.proxyCallArgs.2 = (0, 9700)
      ∧ sampleOutFetcher.feeConfig
          = { clientBasisPointsOfDeposit := 5, clientBasisPointsOfProfit := 1234 } :=
  have t := fee_terms_default_and_fetcher sampleCfg {} sampleEnv sampleParams
    sampleOut rfl
  have tf := fee_terms_default_and_fetcher sampleCfgFetcher {} sampleEnv sampleParams
    sampleOutFetcher rfl
  ⟨rfl, (t.1 rfl rfl).1, (t.1 rfl rfl).2,
   tf.2.1 (fun _ =>
      { clientBasisPointsOfDeposit := 5, clientBasisPointsOfProfit := 1234 }) rfl⟩

/-- C10: the role identifier used by permission setup is the keccak256 hash of
the fixed string P2P_SUPERFORM_ROLE for every run and every input: it is not
caller-configurable (any two completed runs over the same keccak collaborator,
whatever their configuration, state and parameters, yield the identical
value), and it is the roleKey value returned in the result. -/
theorem role_key_fixed_constant
    (cfg : ResolvedConfig) (st : ClientState) (env : SetPermissionsOracles)
    (params : SetPermissionsParams) (out : SetPermissionsOutcome)
    (cfg' : ResolvedConfig) (st' : ClientState) (params' : SetPermissionsParams)
    (out' : SetPermissionsOutcome)
    (h : setPermissions cfg st env params = .ok out)
    (h' : setPermissions cfg' st' env params' = .ok out') :
    out.roleKey = DEFAULT_ROLE_KEY env.keccak
  ∧ out.roleKey = env.keccak (strBytes "P2P_SUPERFORM_ROLE")
  ∧ out'.roleKey = out.roleKey := by
  obtain ⟨_, _, _, _, _, _, _, hkey, _⟩ := setPermissions_ok_fields cfg st env params out h
  obtain ⟨_, _, _, _, _, _, _, hkey', _⟩ :=
    setPermissions_ok_fields cfg' st' env params' out' h'
  exact ⟨hkey, hkey, by rw [hkey, hkey']⟩

/-- Witness for C10 on two concrete sample runs with different
configurations. -/
theorem role_key_fixed_constant_witness :
    sampleOut.roleKey = sampleEnv.keccak (strBytes "P2P_SUPERFORM_ROLE")
      ∧ sampleOutFetcher.roleKey = sampleOut.roleKey :=
  have t := role_key_fixed_constant sampleCfg {} sampleEnv sampleParams sampleOut
    sampleCfgFetcher {} sampleParams sampleOutFetcher rfl rfl
  ⟨t.2.1, t.2.2⟩

end P2pSafeOnboarding
